import Mathlib

/-!
Verification of the FuckACE / PitayaBox frontend core (Tauri + React, TypeScript).

The repository ships several revisions of the same UI:
* `src/unnamed/part_000` — the PitayaBox `App.tsx` (five restriction switches,
  30 s auto loop, registry command buttons);
* `src/unnamed/part_001` — an earlier PitayaBox `App.tsx` (same logic, 5 s loop);
* `src/unnamed/part_002` — the original FuckACE `App.tsx` (start/stop monitoring,
  60 s countdown, argumentless `restrict_processes`);
* `src/src/App.tsx` — FuckACE v0.5.0 `App.tsx` (four restriction switches);
* `src/src/hooks/useOptimizedSupabase.ts` — `useInitialData` plus a plain-DOM
  `main.ts` revision with `startMonitoring` / `stopMonitoring` / countdown;
* `src/unnamed/part_003` — the `storage` localStorage helpers;
* `src/unnamed/part_004` — the README.

The Rust backend (the Tauri commands `restrict_processes`, `get_system_info`,
`start_timer`, …) is not part of the sources; where a claim depends on it, the
backend is modelled from the specification and marked as such.

React `useState` state is embedded as explicit record-passing: each handler
becomes a pure function from the handler's inputs (including the resolved or
rejected result of the awaited `invoke`) and the pre-state to the post-state.
`Date.now()`-based ids are dropped; `toLocaleTimeString()` timestamps are an
opaque `String` argument.
-/

/-- A run-log entry as kept in the `logs` React state
(`{ id, timestamp, message }`; the random numeric `id` is not modelled). -/
structure LogEntry where
  timestamp : String
  message : String
  deriving DecidableEq

/-- `addLog` of part_000 (lines 101–103) and part_001 (lines 70–72):
`setLogs(prev => [...prev, { …, timestamp, message }].slice(-100))`.
JS `slice(-100)` keeps the elements from index `max(len − 100, 0)`,
i.e. the most recent 100 entries. -/
def addLog (ts msg : String) (logs : List LogEntry) : List LogEntry :=
  (logs ++ [(⟨ts, msg⟩ : LogEntry)]).drop ((logs.length + 1) - 100)

/-- `addLog` of `src/src/App.tsx` (lines 156–163) and the plain-DOM revision:
`setLogs(prev => [...prev, newLog])` — no truncation. -/
def addLogTsx (ts msg : String) (logs : List LogEntry) : List LogEntry :=
  logs ++ [(⟨ts, msg⟩ : LogEntry)]

/-- `ProcessPerformance` interface (part_000 line 51, part_001 line 20).
`cpu_usage` and `memory_mb` are JS numbers; no claim computes with them,
so they are carried as integers. -/
structure ProcessPerformance where
  pid : Nat
  name : String
  cpu_usage : Int
  memory_mb : Int
  deriving DecidableEq

/-- `ProcessStatus` interface of part_000 (line 48). -/
structure ProcessStatus000 where
  target_core : Nat
  sguard64_restricted : Bool
  message : String
  deriving DecidableEq

/-- `ProcessStatus` interface of part_001 (line 17). -/
structure ProcessStatus001 where
  target_core : Nat
  sguard64_found : Bool
  sguard64_restricted : Bool
  sguardsvc64_found : Bool
  sguardsvc64_restricted : Bool
  message : String
  deriving DecidableEq

/-- The React state of part_000's `App` that the modelled handlers touch. -/
structure AppState000 where
  targetCore : Option Nat
  logs : List LogEntry
  loading : Bool
  performance : List ProcessPerformance
  autoStartEnabled : Bool
  deriving DecidableEq

/-- The React state of part_001's `App` that the modelled handlers touch. -/
structure AppState001 where
  targetCore : Option Nat
  processStatus : Option ProcessStatus001
  logs : List LogEntry
  loading : Bool
  performance : List ProcessPerformance
  autoStartEnabled : Bool
  deriving DecidableEq

/-- `executeRestriction` of part_000 (lines 110–120), resolved against the
outcome of the awaited `invoke('restrict_processes', …)`:
```
if (!silent) setLoading(true);
try {
  const result = await invoke(…);
  if (result.target_core) setTargetCore(result.target_core);
  if (!silent) addLog(result.message);
} catch (e) { if (!silent) addLog(`失败: ${e}`); }
if (!silent) setLoading(false);
```
`if (result.target_core)` is the JS truthiness test: a number is truthy
iff it is nonzero. -/
def executeRestriction000 (silent : Bool) (ts : String)
    (outcome : Except String ProcessStatus000) (s : AppState000) : AppState000 :=
  let s0 := if silent then s else { s with loading := true }
  let s1 :=
    match outcome with
    | .ok result =>
        let s' := if result.target_core ≠ 0 then
            { s0 with targetCore := some result.target_core } else s0
        if silent then s' else { s' with logs := addLog ts result.message s'.logs }
    | .error e =>
        if silent then s0 else { s0 with logs := addLog ts ("失败: " ++ e) s0.logs }
  if silent then s1 else { s1 with loading := false }

/-- `executeRestriction` of part_001 (lines 87–98):
```
if (!silent) setLoading(true);
try {
  const result = await invoke(…);
  setProcessStatus(result);
  setTargetCore(result.target_core);
  if (!silent) addLog(result.message);
} catch (e) { if (!silent) addLog(`执行失败: ${e}`); }
if (!silent) setLoading(false);
```
-/
def executeRestriction001 (silent : Bool) (ts : String)
    (outcome : Except String ProcessStatus001) (s : AppState001) : AppState001 :=
  let s0 := if silent then s else { s with loading := true }
  let s1 :=
    match outcome with
    | .ok result =>
        let s' := { s0 with processStatus := some result,
                            targetCore := some result.target_core }
        if silent then s' else { s' with logs := addLog ts result.message s'.logs }
    | .error e =>
        if silent then s0 else { s0 with logs := addLog ts ("执行失败: " ++ e) s0.logs }
  if silent then s1 else { s1 with loading := false }

/-- `toggleAutoStart` of part_000 (lines 122–128): the awaited
`enable_autostart` / `disable_autostart` invoke either resolves (`.ok`) or
rejects (`.error`); `setAutoStartEnabled(!autoStartEnabled)` runs only after a
resolution, the catch only logs. -/
def toggleAutoStart (ts : String) (outcome : Except String Unit)
    (s : AppState000) : AppState000 :=
  match outcome with
  | .ok _ =>
      let msg := if s.autoStartEnabled then "自启动已关闭" else "自启动已开启"
      { s with logs := addLog ts msg s.logs,
               autoStartEnabled := !s.autoStartEnabled }
  | .error e =>
      { s with logs := addLog ts ("自启动设置错误: " ++ e) s.logs }

/-- A backend command invocation issued by the interval callback. -/
inductive Invocation where
  | getProcessPerformance
  | restrictProcesses (silent : Bool)
  deriving DecidableEq

/-- The `setInterval` callback of part_000 (lines 143–146) and part_001
(lines 119–122), as the list of backend invocations it issues on one tick:
```
setPerformance(await invoke('get_process_performance'));
if (enableAutoLimit) executeRestriction(true);
```
-/
def intervalTickInvocations (enableAutoLimit : Bool) : List Invocation :=
  [.getProcessPerformance] ++
    (if enableAutoLimit then [.restrictProcesses true] else [])

/-- The call sites that invoke the `restrict_processes` command. -/
inductive RestrictCaller where
  | part000
  | part001
  | appTsx
  | part002
  deriving DecidableEq

/-- The five `RestrictionConfig` keys of the spec, in the order the part_000
and part_001 call sites pass them. -/
def fullConfigKeys : List String :=
  ["enableCpuAffinity", "enableProcessPriority", "enableEfficiencyMode",
   "enableIoPriority", "enableMemoryPriority"]

/-- The argument keys each call site passes to
`invoke('restrict_processes', …)`:
part_000 lines 113–115 and part_001 lines 90–92 pass all five booleans;
`src/src/App.tsx` lines 170–175 passes four (`enableBasicCpuLimit`,
`enableEfficiencyMode`, `enableIoPriority`, `enableMemoryPriority`);
part_002 line 122 passes no argument object at all. -/
def restrictArgs : RestrictCaller → List String
  | .part000 => ["enableCpuAffinity", "enableProcessPriority",
      "enableEfficiencyMode", "enableIoPriority", "enableMemoryPriority"]
  | .part001 => ["enableCpuAffinity", "enableProcessPriority",
      "enableEfficiencyMode", "enableIoPriority", "enableMemoryPriority"]
  | .appTsx => ["enableBasicCpuLimit", "enableEfficiencyMode",
      "enableIoPriority", "enableMemoryPriority"]
  | .part002 => []

/-- Modelled from the spec: the Rust `restrict_processes` backend is not under
`src/`; per §3 of the spec it recomputes `target_core = cpu_logical_cores − 1`
from a fresh SystemProbe read on every restriction run. -/
def backendTargetCore (cpu_logical_cores : Nat) : Nat :=
  cpu_logical_cores - 1

/-- `runRegistryCommand` of part_000 (lines 105–108):
`addLog('指令: ' + desc); try { msg = await invoke(command); addLog(msg) }
catch (e) { addLog('❌ 错误: ' + e) }`. The `command` string selects which
backend command is invoked (`lower_ace_priority`, `reset_ace_priority`,
`check_registry_priority`, `raise_delta_priority`, `reset_delta_priority`,
`modify_valorant_registry_priority`, `reset_valorant_priority`); the log
behaviour is identical for all of them, so only the resolved/rejected outcome
is passed in. -/
def runRegistryCommand000 (ts desc : String) (outcome : Except String String)
    (logs : List LogEntry) : List LogEntry :=
  let l1 := addLog ts ("指令: " ++ desc) logs
  match outcome with
  | .ok msg => addLog ts msg l1
  | .error e => addLog ts ("❌ 错误: " ++ e) l1

/-- `runRegistryCommand` of part_001 (lines 77–85): same shape, different
message texts (`正在执行: desc...`, `❌ 执行失败: e`). -/
def runRegistryCommand001 (ts desc : String) (outcome : Except String String)
    (logs : List LogEntry) : List LogEntry :=
  let l1 := addLog ts ("正在执行: " ++ desc ++ "...") logs
  match outcome with
  | .ok msg => addLog ts msg l1
  | .error e => addLog ts ("❌ 执行失败: " ++ e) l1

/-- The slice of `src/src/App.tsx` React state the registry handlers touch. -/
structure AppStateTsx where
  logs : List LogEntry
  loading : Bool
  deriving DecidableEq

/-- `modifyValorantRegistryPriority` of `src/src/App.tsx` (lines 280–293):
```
setLoading(true); addLog('开始修改瓦罗兰特注册表优先级...');
const result = await invoke('modify_valorant_registry_priority');
addLog('瓦罗兰特注册表修改完成:');
result.split('\n').forEach(line => addLog(line));
catch: addLog(`修改瓦罗兰特注册表失败: ${error}`);
finally: setLoading(false);
```
-/
def modifyValorantRegistryPriorityTsx (ts : String)
    (outcome : Except String String) (s : AppStateTsx) : AppStateTsx :=
  let s1 : AppStateTsx :=
    { loading := true,
      logs := addLogTsx ts "开始修改瓦罗兰特注册表优先级..." s.logs }
  let s2 : AppStateTsx :=
    match outcome with
    | .ok result =>
        let l2 := addLogTsx ts "瓦罗兰特注册表修改完成:" s1.logs
        let l3 := (result.splitOn "\n").foldl (fun acc line => addLogTsx ts line acc) l2
        { s1 with logs := l3 }
    | .error e =>
        { s1 with logs := addLogTsx ts ("修改瓦罗兰特注册表失败: " ++ e) s1.logs }
  { s2 with loading := false }

/-!
Monitoring loop of the plain-DOM revision
(`src/src/hooks/useOptimizedSupabase.ts`, second document: `main.ts`).
Module state: `isMonitoring : boolean`, `countdownTimer : number | null`,
`countdownSeconds : number`, plus the (async, possibly in-flight)
`executeProcessRestriction` call. The timer callback (lines 67–78):
```
countdownSeconds--;
if (countdownSeconds <= 0) {
  if (isMonitoring) { executeProcessRestriction(); countdownSeconds = 60; }
}
```
-/

/-- The module-level monitoring state of `main.ts`, with two ghost counters
for restriction runs started and completed. -/
structure MonState where
  isMonitoring : Bool
  timerActive : Bool
  countdownSeconds : Int
  inFlight : Bool
  startedRuns : Nat
  completedRuns : Nat
  deriving DecidableEq

/-- One countdown-interval tick (`main.ts` lines 67–78). A tick exists only
while the interval is registered (`timerActive`); when the countdown reaches
zero and monitoring is on, an `executeProcessRestriction` call starts. -/
def monTick (s : MonState) : MonState :=
  if !s.timerActive then s
  else
    let n := s.countdownSeconds - 1
    if n ≤ 0 && s.isMonitoring then
      { s with countdownSeconds := 60, startedRuns := s.startedRuns + 1,
               inFlight := true }
    else { s with countdownSeconds := n }

/-- `manualExecute` (`main.ts` lines 168–179): refused unless monitoring;
otherwise starts a restriction run and restarts the countdown. -/
def monManual (s : MonState) : MonState :=
  if s.isMonitoring then
    { s with startedRuns := s.startedRuns + 1, inFlight := true,
             countdownSeconds := if s.timerActive then 60 else s.countdownSeconds }
  else s

/-- Completion of an in-flight `executeProcessRestriction` invocation. -/
def monRunFinish (s : MonState) : MonState :=
  if s.inFlight then
    { s with inFlight := false, completedRuns := s.completedRuns + 1 }
  else s

/-- `stopMonitoring` (`main.ts` lines 146–165): guard `if (!isMonitoring)
return`; then `isMonitoring = false`; `await invoke('stop_timer')`; on
resolution the countdown interval is cleared, on rejection it is left
registered (only an error is logged). Nothing touches the in-flight run. -/
def stopMonitoring (ok : Bool) (s : MonState) : MonState :=
  if !s.isMonitoring then s
  else if ok then { s with isMonitoring := false, timerActive := false }
  else { s with isMonitoring := false }

/-- The events that can occur after a stop (no restart). -/
inductive MonEv where
  | tick
  | manual
  | runFinish
  deriving DecidableEq

/-- Apply one post-stop event. -/
def monApply : MonEv → MonState → MonState
  | .tick, s => monTick s
  | .manual, s => monManual s
  | .runFinish, s => monRunFinish s

/-- Apply a sequence of post-stop events. -/
def monApplyAll (evs : List MonEv) (s : MonState) : MonState :=
  evs.foldl (fun st e => monApply e st) s

/-!
`storage` helpers of `src/unnamed/part_003`. `localStorage.getItem` returns
the stored string or `null`, modelled as `Option String`; `JSON.parse` is
modelled by an executable JSON parser over a `Json` value type (JSON numbers
are kept as their source text — none of the helpers computes with them;
`\uXXXX` string escapes are not modelled and make a text unparseable).
`JSON.parse` throwing is modelled as the parser returning `none`.
-/

/-- A parsed JSON value. -/
inductive Json where
  | null
  | bool (b : Bool)
  | num (raw : String)
  | str (s : String)
  | arr (items : List Json)
  | obj (fields : List (String × Json))

/-- Whether a JSON value is an object (JS `typeof v === 'object' && v !== null
&& !Array.isArray(v)`). -/
def Json.isObject : Json → Bool
  | .obj _ => true
  | _ => false

/-- JSON insignificant whitespace. -/
def isJsonWs (c : Char) : Bool :=
  c = ' ' || c = '\t' || c = '\n' || c = '\r'

/-- Drop leading JSON whitespace. -/
def skipWs : List Char → List Char
  | [] => []
  | c :: cs => if isJsonWs c then skipWs cs else c :: cs

/-- Parse the body of a JSON string after the opening quote; returns the
decoded characters and the input past the closing quote. -/
def parseStringBody : List Char → Option (List Char × List Char)
  | [] => none
  | '"' :: cs => some ([], cs)
  | '\\' :: e :: cs =>
      let esc : Option Char :=
        if e = '"' then some '"'
        else if e = '\\' then some '\\'
        else if e = '/' then some '/'
        else if e = 'n' then some '\n'
        else if e = 't' then some '\t'
        else if e = 'r' then some '\r'
        else if e = 'b' then some (Char.ofNat 8)
        else if e = 'f' then some (Char.ofNat 12)
        else none
      match esc with
      | none => none
      | some d =>
          match parseStringBody cs with
          | none => none
          | some (body, rest) => some (d :: body, rest)
  | c :: cs =>
      match parseStringBody cs with
      | none => none
      | some (body, rest) => some (c :: body, rest)

/-- Split a maximal run of leading decimal digits. -/
def spanDigits : List Char → (List Char × List Char)
  | [] => ([], [])
  | c :: cs =>
      if c.isDigit then
        let (ds, rest) := spanDigits cs
        (c :: ds, rest)
      else ([], c :: cs)

/-- JSON integer part: `0`, or a nonzero digit followed by digits. -/
def parseIntPart : List Char → Option (List Char × List Char)
  | [] => none
  | c :: cs =>
      if c = '0' then some ([c], cs)
      else if c.isDigit then
        let (ds, rest) := spanDigits cs
        some (c :: ds, rest)
      else none

/-- Optional JSON fraction part (`.` followed by at least one digit);
on anything else consumes nothing. -/
def parseFracPart : List Char → (List Char × List Char)
  | '.' :: c :: cs =>
      if c.isDigit then
        let (ds, rest) := spanDigits cs
        ('.' :: c :: ds, rest)
      else ([], '.' :: c :: cs)
  | cs => ([], cs)

/-- Optional JSON exponent part (`e`/`E`, optional sign, digits);
on anything else consumes nothing. -/
def parseExpPart : List Char → (List Char × List Char)
  | [] => ([], [])
  | c :: cs =>
      if c = 'e' || c = 'E' then
        match cs with
        | [] => ([], [c])
        | d :: cs' =>
            if d.isDigit then
              let (ds, rest) := spanDigits cs'
              (c :: d :: ds, rest)
            else if d = '+' || d = '-' then
              match cs' with
              | [] => ([], c :: [d])
              | d2 :: cs'' =>
                  if d2.isDigit then
                    let (ds, rest) := spanDigits cs''
                    (c :: d :: d2 :: ds, rest)
                  else ([], c :: d :: d2 :: cs'')
            else ([], c :: d :: cs')
      else ([], c :: cs)

/-- A JSON number: optional minus, integer part, optional fraction and
exponent. Returns the numeral's source characters. -/
def parseNumber (cs : List Char) : Option (List Char × List Char) :=
  match cs with
  | '-' :: cs' =>
      match parseIntPart cs' with
      | none => none
      | some (ip, r1) =>
          let (fp, r2) := parseFracPart r1
          let (ep, r3) := parseExpPart r2
          some ('-' :: (ip ++ fp ++ ep), r3)
  | _ =>
      match parseIntPart cs with
      | none => none
      | some (ip, r1) =>
          let (fp, r2) := parseFracPart r1
          let (ep, r3) := parseExpPart r2
          some (ip ++ fp ++ ep, r3)

mutual

/-- Parse one JSON value (fuel-bounded recursive descent). -/
def parseValue : Nat → List Char → Option (Json × List Char)
  | 0, _ => none
  | fuel + 1, cs =>
      match skipWs cs with
      | 'n' :: 'u' :: 'l' :: 'l' :: rest => some (.null, rest)
      | 't' :: 'r' :: 'u' :: 'e' :: rest => some (.bool true, rest)
      | 'f' :: 'a' :: 'l' :: 's' :: 'e' :: rest => some (.bool false, rest)
      | '"' :: rest =>
          match parseStringBody rest with
          | some (body, r) => some (.str (String.mk body), r)
          | none => none
      | '[' :: rest =>
          match skipWs rest with
          | ']' :: r => some (.arr [], r)
          | cs' =>
              match parseElems fuel cs' with
              | some (items, r) => some (.arr items, r)
              | none => none
      | c :: rest =>
          if c = '\x7b' then
            match skipWs rest with
            | [] => none
            | c2 :: r =>
                if c2 = '\x7d' then some (.obj [], r)
                else
                  match parseFields fuel (c2 :: r) with
                  | some (fs, r2) => some (.obj fs, r2)
                  | none => none
          else
            match parseNumber (c :: rest) with
            | some (ncs, r) => some (.num (String.mk ncs), r)
            | none => none
      | [] => none

/-- Parse the comma-separated elements of a nonempty JSON array, up to and
including the closing bracket. -/
def parseElems : Nat → List Char → Option (List Json × List Char)
  | 0, _ => none
  | fuel + 1, cs =>
      match parseValue fuel cs with
      | none => none
      | some (v, r) =>
          match skipWs r with
          | ',' :: r2 =>
              match parseElems fuel r2 with
              | some (vs, r3) => some (v :: vs, r3)
              | none => none
          | ']' :: r2 => some ([v], r2)
          | _ => none

/-- Parse the comma-separated members of a nonempty JSON object, up to and
including the closing brace. -/
def parseFields : Nat → List Char → Option (List (String × Json) × List Char)
  | 0, _ => none
  | fuel + 1, cs =>
      match skipWs cs with
      | '"' :: rest =>
          match parseStringBody rest with
          | none => none
          | some (kcs, r) =>
              match skipWs r with
              | ':' :: r2 =>
                  match parseValue fuel r2 with
                  | none => none
                  | some (v, r3) =>
                      match skipWs r3 with
                      | ',' :: r4 =>
                          match parseFields fuel r4 with
                          | some (fs, r5) => some ((String.mk kcs, v) :: fs, r5)
                          | none => none
                      | c :: r4 =>
                          if c = '\x7d' then some ([(String.mk kcs, v)], r4)
                          else none
                      | [] => none
              | _ => none
      | _ => none

end

/-- Model of `JSON.parse`: parse one value consuming the whole text (modulo
trailing whitespace); `none` models a thrown `SyntaxError`. The fuel
`2 * length + 2` is enough because every unit of fuel spent either consumes an
input character or immediately precedes one that does. -/
def jsonParse (s : String) : Option Json :=
  match parseValue (2 * s.length + 2) s.data with
  | some (v, rest) => if (skipWs rest).isEmpty then some v else none
  | none => none

/-- `storage.getChoices` (part_003 lines 5–12):
`try { const item = localStorage.getItem(STORAGE_KEY);
return item ? JSON.parse(item) : {} } catch { return {} }`.
The empty string is falsy, so it also yields `{}`. -/
def getChoices (item : Option String) : Json :=
  match item with
  | none => .obj []
  | some s =>
      if s.isEmpty then .obj []
      else
        match jsonParse s with
        | some v => v
        | none => .obj []

/-- `storage.get` (part_003 lines 22–25):
`const item = localStorage.getItem(key);
try { return item ? JSON.parse(item) : null } catch { return null }`. -/
def storageGet (item : Option String) : Option Json :=
  match item with
  | none => none
  | some s => if s.isEmpty then none else jsonParse s

/-!
Single-flight restriction engine. The Rust implementation of
`restrict_processes` is not under `src/`; only its callers are (the manual
"一键优化" button, part_000 line 335, and the silent loop, part_000 lines
143–147, both funnel into `executeRestriction`). The guard itself is modelled
from §5 of the spec: manual and automatic requests enter one entry point
protected by a guard keyed on "restriction run in progress"; a second caller
waits until the in-flight run completes.
-/

/-- The origin of a restriction request (part_000's two call sites). -/
inductive RunOrigin where
  | manual
  | silentLoop
  deriving DecidableEq

/-- Modelled from the spec: state of the single-flight `restrict_processes`
engine — the requests waiting on the guard and the number of runs currently
executing their per-process mutations. `running` is a counter precisely so
that a mutual-exclusion violation is expressible. -/
structure EngineState where
  waiting : List RunOrigin
  running : Nat
  deriving DecidableEq

/-- Modelled from the spec: the engine's atomic transitions. A request
(manual or from the silent loop) joins the waiting callers; a waiting caller
passes the guard only when no run is in flight; a finishing run releases the
guard. -/
inductive EngineStep : EngineState → EngineState → Prop
  | request (s : EngineState) (o : RunOrigin) :
      EngineStep s { s with waiting := s.waiting ++ [o] }
  | start (s : EngineState) (o : RunOrigin) (rest : List RunOrigin)
      (hw : s.waiting = o :: rest) (hr : s.running = 0) :
      EngineStep s { waiting := rest, running := 1 }
  | finish (s : EngineState) (hr : 0 < s.running) :
      EngineStep s { s with running := s.running - 1 }

/-- Engine states reachable from the idle initial state. -/
inductive EngineReachable : EngineState → Prop
  | init : EngineReachable ⟨[], 0⟩
  | step {s s' : EngineState} :
      EngineReachable s → EngineStep s s' → EngineReachable s'

/-- `toggleAutoStartup` of `src/src/App.tsx` (lines 246–261): the flag is set
only after the chosen `enable_autostart` / `disable_autostart` invoke
resolves; the catch only logs. Returns the new flag and log. -/
def toggleAutoStartupTsx (ts : String) (outcome : Except String Unit)
    (autoStartEnabled : Bool) (logs : List LogEntry) : Bool × List LogEntry :=
  match outcome with
  | .ok _ =>
      if autoStartEnabled then (false, addLogTsx ts "已禁用开机自启动" logs)
      else (true, addLogTsx ts "已启用开机自启动" logs)
  | .error e =>
      (autoStartEnabled, addLogTsx ts ("切换自启动失败: " ++ e) logs)

/-!
Helper lemmas, shared between the claim theorems.
-/

/-- The entry just added by `addLog` is the last one of the resulting log. -/
theorem addLog_getLast (ts msg : String) (logs : List LogEntry) :
    (addLog ts msg logs).getLast? = some ⟨ts, msg⟩ := by
  unfold addLog
  have hk : (logs.length + 1) - 100 ≤ logs.length := by omega
  rw [List.drop_append_of_le_length hk, List.getLast?_append_cons]
  rfl

/-- `addLog` keeps the most recent 100 entries. -/
theorem addLog_length (ts msg : String) (logs : List LogEntry) :
    (addLog ts msg logs).length = min (logs.length + 1) 100 := by
  unfold addLog
  rw [List.length_drop]
  simp only [List.length_append, List.length_singleton]
  omega

/-- Folding `addLogTsx` over a list of lines appends one entry per line. -/
theorem foldl_addLogTsx (ts : String) (lines : List String)
    (acc : List LogEntry) :
    lines.foldl (fun a line => addLogTsx ts line a) acc
      = acc ++ lines.map (fun line => (⟨ts, line⟩ : LogEntry)) := by
  induction lines generalizing acc with
  | nil => simp
  | cons l ls ih =>
      rw [List.foldl_cons, ih]
      simp [addLogTsx]

/-- A log that starts within the 100-entry bound stays within it under any
sequence of `addLog` calls. -/
theorem foldl_addLog_le (calls : List (String × String)) (logs : List LogEntry)
    (h : logs.length ≤ 100) :
    (calls.foldl (fun l p => addLog p.1 p.2 l) logs).length ≤ 100 := by
  induction calls generalizing logs with
  | nil => simpa using h
  | cons c cs ih =>
      simp only [List.foldl_cons]
      exact ih _ (by rw [addLog_length]; omega)

/-- A post-stop event neither restarts monitoring nor starts a new
restriction run. -/
theorem monApply_stopped (e : MonEv) (s : MonState)
    (hm : s.isMonitoring = false) :
    (monApply e s).isMonitoring = false ∧
    (monApply e s).startedRuns = s.startedRuns := by
  cases e <;>
    simp [monApply, monTick, monManual, monRunFinish, hm] <;>
    split <;> simp [hm]

/-- No sequence of post-stop events restarts monitoring or starts a new
restriction run. -/
theorem monApplyAll_stopped (evs : List MonEv) (s : MonState)
    (hm : s.isMonitoring = false) :
    (monApplyAll evs s).isMonitoring = false ∧
    (monApplyAll evs s).startedRuns = s.startedRuns := by
  induction evs generalizing s with
  | nil => exact ⟨hm, rfl⟩
  | cons e es ih =>
      have h1 := monApply_stopped e s hm
      have h2 := ih (monApply e s) h1.1
      exact ⟨h2.1, by simpa [monApplyAll, h1.2] using h2.2⟩

/-- C2 (counterexample): the claim "every invocation of `restrict_processes`
supplies the full five-boolean RestrictionConfig, for every caller" is false:
the part_002 caller (`executeProcessRestriction`, line 122) invokes
`restrict_processes` with no argument object at all, and the
`src/src/App.tsx` caller passes only four keys. -/
theorem c2_full_config_counterexample :
    restrictArgs RestrictCaller.part002 = [] ∧
    restrictArgs RestrictCaller.part002 ≠ fullConfigKeys ∧
    restrictArgs RestrictCaller.appTsx ≠ fullConfigKeys := by
  refine ⟨rfl, by decide, by decide⟩

/-- C2 (amended): the part_000 and part_001 callers supply all five
RestrictionConfig booleans on every invocation (manual and automatic runs
share the same `executeRestriction` call site); the `src/src/App.tsx` caller
supplies four keys (`enableBasicCpuLimit`, `enableEfficiencyMode`,
`enableIoPriority`, `enableMemoryPriority` — no process-priority flag), and
the part_002 caller supplies none. -/
theorem c2_config_keys_per_caller :
    restrictArgs RestrictCaller.part000 = fullConfigKeys ∧
    restrictArgs RestrictCaller.part001 = fullConfigKeys ∧
    restrictArgs RestrictCaller.appTsx =
      ["enableBasicCpuLimit", "enableEfficiencyMode", "enableIoPriority",
       "enableMemoryPriority"] ∧
    restrictArgs RestrictCaller.part002 = [] :=
  ⟨rfl, rfl, rfl, rfl⟩

/-- C3: every tick of the periodic interval (part_000 lines 143–147, part_001
lines 119–123) invokes `get_process_performance` unconditionally, and invokes
`restrict_processes` — always in silent mode — exactly when the auto-loop
toggle (`enableAutoLimit`) is enabled at that tick. -/
theorem c3_tick_refresh_and_conditional_restrict (auto : Bool) :
    Invocation.getProcessPerformance ∈ intervalTickInvocations auto ∧
    ∀ silent : Bool,
      (Invocation.restrictProcesses silent ∈ intervalTickInvocations auto ↔
        auto = true ∧ silent = true) := by
  cases auto <;> decide

/-- C9: `addLog` (part_000 lines 101–103, part_001 lines 70–72) appends the
new entry as the last element and truncates to the most recent 100 entries,
so the run log's length is at most 100 after every call and after any
sequence of calls starting from the empty log. -/
theorem c9_log_bounded (ts msg : String) (logs : List LogEntry)
    (calls : List (String × String)) :
    (addLog ts msg logs).getLast? = some ⟨ts, msg⟩ ∧
    (addLog ts msg logs).length = min (logs.length + 1) 100 ∧
    (addLog ts msg logs).length ≤ 100 ∧
    (calls.foldl (fun l p => addLog p.1 p.2 l) []).length ≤ 100 := by
  refine ⟨addLog_getLast ts msg logs, addLog_length ts msg logs, ?_, ?_⟩
  · rw [addLog_length]; omega
  · exact foldl_addLog_le calls [] (by simp)

/-- C10: toggling autostart is atomic with respect to the displayed flag in
both the part_000 handler (`toggleAutoStart`, lines 122–128) and the
`src/src/App.tsx` handler (`toggleAutoStartup`, lines 246–261): when the
invoke rejects, the flag keeps its prior value; when it resolves, the flag is
flipped — for every starting value. -/
theorem c10_autostart_toggle_atomic (ts : String) (s : AppState000)
    (flag : Bool) (logs : List LogEntry) :
    (∀ e, (toggleAutoStart ts (Except.error e) s).autoStartEnabled
        = s.autoStartEnabled) ∧
    (∀ u, (toggleAutoStart ts (Except.ok u) s).autoStartEnabled
        = !s.autoStartEnabled) ∧
    (∀ e, (toggleAutoStartupTsx ts (Except.error e) flag logs).1 = flag) ∧
    (∀ u, (toggleAutoStartupTsx ts (Except.ok u) flag logs).1 = !flag) := by
  refine ⟨fun e => rfl, fun u => rfl, fun e => rfl, fun u => ?_⟩
  cases flag <;> rfl

/-- C8 (counterexample): the claim that `storage.getChoices()` returns an
object for every state of localStorage fails on valid non-object JSON: with
the stored text `5`, `JSON.parse` succeeds and `getChoices` returns the
number itself, not an object. -/
theorem c8_get_choices_nonobject_counterexample :
    jsonParse "5" = some (Json.num "5") ∧
    getChoices (some "5") = Json.num "5" ∧
    (getChoices (some "5")).isObject = false :=
  ⟨rfl, rfl, rfl⟩

/-- C8 (amended): the storage helpers are total over arbitrary stored
content and never throw: `getChoices` returns an empty object when the item
is absent, empty, or unparseable, and otherwise returns the parsed JSON value
as-is (which is an object only when the stored text is a JSON object);
`storageGet` returns null (`none`) when the item is absent, empty, or
unparseable, and otherwise the parsed value. -/
theorem c8_storage_helpers_total (s : String) :
    getChoices none = Json.obj [] ∧
    storageGet none = none ∧
    (jsonParse s = none →
      getChoices (some s) = Json.obj [] ∧ storageGet (some s) = none) ∧
    (s.isEmpty = true →
      getChoices (some s) = Json.obj [] ∧ storageGet (some s) = none) ∧
    (∀ v, jsonParse s = some v → s.isEmpty = false →
      getChoices (some s) = v ∧ storageGet (some s) = some v) := by
  refine ⟨rfl, rfl, ?_, ?_, ?_⟩
  · intro h
    by_cases he : s.isEmpty <;> simp [getChoices, storageGet, h, he]
  · intro he
    simp [getChoices, storageGet, he]
  · intro v hv he
    simp [getChoices, storageGet, hv, he]

/-- C8 (witness): `c8_storage_helpers_total` applied at the unparseable text
`not json` and at the parseable non-empty text `5`. -/
theorem c8_storage_helpers_total_witness :
    (getChoices (some "not json") = Json.obj [] ∧
      storageGet (some "not json") = none) ∧
    (getChoices (some "5") = Json.num "5" ∧
      storageGet (some "5") = some (Json.num "5")) :=
  ⟨(c8_storage_helpers_total "not json").2.2.1 rfl,
   (c8_storage_helpers_total "5").2.2.2.2 (Json.num "5") rfl rfl⟩

/-- C1 (counterexample): the claim that after every restriction run the
displayed target core is updated to the run's freshly computed `target_core`,
including `target_core = 0`, fails on part_000: `executeRestriction`
(line 116) guards the update with JS truthiness (`if (result.target_core)`),
so a run reporting `target_core = 0` — the single-logical-core case — leaves
the previously displayed value `5` in place instead of showing `0`. -/
theorem c1_stale_target_core_counterexample :
    (⟨0, true, "已限制"⟩ : ProcessStatus000).target_core = 0 ∧
    (executeRestriction000 true "12:00:00" (Except.ok ⟨0, true, "已限制"⟩)
        ⟨some 5, [], false, [], false⟩).targetCore = some 5 ∧
    (executeRestriction000 true "12:00:00" (Except.ok ⟨0, true, "已限制"⟩)
        ⟨some 5, [], false, [], false⟩).targetCore ≠ some 0 :=
  ⟨rfl, rfl, by decide⟩

/-- C1 (amended): the engine's target core is `cpu_logical_cores − 1`
(backend modelled from the spec, the Rust side is not under `src/`), and a
restriction run updates the displayed target core to the run's freshly
computed value whenever that value is nonzero; on a single-logical-core
machine (`target_core = 0`) part_000's handler keeps the stale previous
display. -/
theorem c1_target_core_freshness (cores : Nat) (hcores : 1 ≤ cores) :
    backendTargetCore cores = cores - 1 ∧
    ∀ (silent : Bool) (ts : String) (r : ProcessStatus000) (s : AppState000),
      r.target_core = backendTargetCore cores →
      (executeRestriction000 silent ts (Except.ok r) s).targetCore =
        (if 2 ≤ cores then some (cores - 1) else s.targetCore) := by
  refine ⟨rfl, ?_⟩
  intro silent ts r s hr
  have hb : backendTargetCore cores = cores - 1 := rfl
  rw [hb] at hr
  by_cases h2 : 2 ≤ cores
  · have hz : r.target_core ≠ 0 := by omega
    have hone : ¬(cores - 1 = 0) := by omega
    cases silent <;> simp [executeRestriction000, hz, hr, h2, hone]
  · have hz : r.target_core = 0 := by omega
    cases silent <;> simp [executeRestriction000, hz, h2]

/-- C1 (witness): `c1_target_core_freshness` on an 8-logical-core system:
the backend target core is 7 and a run result carrying it refreshes the
display to core 7. -/
theorem c1_target_core_freshness_witness :
    backendTargetCore 8 = 7 ∧
    (executeRestriction000 false "12:00:00" (Except.ok ⟨7, true, "done"⟩)
        ⟨none, [], false, [], false⟩).targetCore = some 7 := by
  have h := c1_target_core_freshness 8 (by norm_num)
  refine ⟨h.1, ?_⟩
  have h2 := h.2 false "12:00:00" ⟨7, true, "done"⟩ ⟨none, [], false, [], false⟩ rfl
  simpa using h2

/-- C4: a silent restriction run (part_000 lines 110–120, part_001 lines
87–98) appends no log entry and leaves the loading flag unchanged, on success
and on failure alike, while updating the status indicators (target core,
per-process status) exactly as a non-silent run from the same state and
outcome would; a non-silent successful run additionally appends the result
message to the log. -/
theorem c4_silent_run_frame (ts : String)
    (out1 : Except String ProcessStatus001) (s1 : AppState001)
    (out0 : Except String ProcessStatus000) (s0 : AppState000) :
    (executeRestriction001 true ts out1 s1).logs = s1.logs ∧
    (executeRestriction001 true ts out1 s1).loading = s1.loading ∧
    (executeRestriction001 true ts out1 s1).targetCore
      = (executeRestriction001 false ts out1 s1).targetCore ∧
    (executeRestriction001 true ts out1 s1).processStatus
      = (executeRestriction001 false ts out1 s1).processStatus ∧
    (∀ r, out1 = Except.ok r →
      (executeRestriction001 true ts out1 s1).targetCore = some r.target_core ∧
      (executeRestriction001 true ts out1 s1).processStatus = some r) ∧
    (∀ r, out1 = Except.ok r →
      (executeRestriction001 false ts out1 s1).logs
        = addLog ts r.message s1.logs) ∧
    (executeRestriction000 true ts out0 s0).logs = s0.logs ∧
    (executeRestriction000 true ts out0 s0).loading = s0.loading ∧
    (executeRestriction000 true ts out0 s0).targetCore
      = (executeRestriction000 false ts out0 s0).targetCore ∧
    (∀ r, out0 = Except.ok r →
      (executeRestriction000 false ts out0 s0).logs
        = addLog ts r.message s0.logs) := by
  cases out1 <;> cases out0 <;>
    simp [executeRestriction001, executeRestriction000] <;>
    split <;> simp

/-- C4 (witness): `c4_silent_run_frame` on a concrete successful run: the
silent run keeps the empty log and the loading flag while publishing target
core 7 and the per-process status, and the non-silent run appends the
message. -/
theorem c4_silent_run_frame_witness :
    (executeRestriction001 true "09:00:00"
        (Except.ok ⟨7, true, true, true, true, "ok"⟩)
        ⟨none, none, [], false, [], false⟩).targetCore = some 7 ∧
    (executeRestriction001 true "09:00:00"
        (Except.ok ⟨7, true, true, true, true, "ok"⟩)
        ⟨none, none, [], false, [], false⟩).logs = [] ∧
    (executeRestriction000 false "09:00:00" (Except.ok ⟨7, true, "ok"⟩)
        ⟨none, [], false, [], false⟩).logs = addLog "09:00:00" "ok" [] := by
  have h := c4_silent_run_frame "09:00:00"
      (Except.ok ⟨7, true, true, true, true, "ok"⟩)
      ⟨none, none, [], false, [], false⟩
      (Except.ok ⟨7, true, "ok"⟩) ⟨none, [], false, [], false⟩
  exact ⟨(h.2.2.2.2.1 _ rfl).1, h.1, h.2.2.2.2.2.2.2.2.2 _ rfl⟩

/-- C5: every registry-command invocation reports its outcome in the run log:
`runRegistryCommand` (part_000 lines 105–108, part_001 lines 77–85) — through
which all seven registry commands are routed — ends the log with the resolved
report string on success and with an error entry on rejection; the
`src/src/App.tsx` handler likewise appends the header plus every line of the
report on success and an error entry on rejection, strictly growing the log
in both cases. -/
theorem c5_registry_command_reports_outcome (ts desc : String)
    (logs : List LogEntry) (s : AppStateTsx) :
    (∀ msg, (runRegistryCommand000 ts desc (Except.ok msg) logs).getLast?
        = some ⟨ts, msg⟩) ∧
    (∀ e, (runRegistryCommand000 ts desc (Except.error e) logs).getLast?
        = some ⟨ts, "❌ 错误: " ++ e⟩) ∧
    (∀ msg, (runRegistryCommand001 ts desc (Except.ok msg) logs).getLast?
        = some ⟨ts, msg⟩) ∧
    (∀ e, (runRegistryCommand001 ts desc (Except.error e) logs).getLast?
        = some ⟨ts, "❌ 执行失败: " ++ e⟩) ∧
    (∀ res, (modifyValorantRegistryPriorityTsx ts (Except.ok res) s).logs
        = s.logs ++ (⟨ts, "开始修改瓦罗兰特注册表优先级..."⟩ : LogEntry)
            :: (⟨ts, "瓦罗兰特注册表修改完成:"⟩ : LogEntry)
            :: (res.splitOn "\n").map (fun line => (⟨ts, line⟩ : LogEntry))) ∧
    (∀ e, (modifyValorantRegistryPriorityTsx ts (Except.error e) s).logs
        = s.logs ++ [(⟨ts, "开始修改瓦罗兰特注册表优先级..."⟩ : LogEntry),
            (⟨ts, "修改瓦罗兰特注册表失败: " ++ e⟩ : LogEntry)]) ∧
    (∀ res, s.logs.length
        < (modifyValorantRegistryPriorityTsx ts (Except.ok res) s).logs.length) ∧
    (∀ e, s.logs.length
        < (modifyValorantRegistryPriorityTsx ts (Except.error e) s).logs.length) := by
  refine ⟨fun msg => ?_, fun e => ?_, fun msg => ?_, fun e => ?_,
      fun res => ?_, fun e => ?_, fun res => ?_, fun e => ?_⟩
  · simpa [runRegistryCommand000] using addLog_getLast ts msg _
  · simpa [runRegistryCommand000] using addLog_getLast ts ("❌ 错误: " ++ e) _
  · simpa [runRegistryCommand001] using addLog_getLast ts msg _
  · simpa [runRegistryCommand001] using addLog_getLast ts ("❌ 执行失败: " ++ e) _
  · show (modifyValorantRegistryPriorityTsx ts (Except.ok res) s).logs = _
    simp only [modifyValorantRegistryPriorityTsx]
    rw [foldl_addLogTsx]
    simp [addLogTsx]
  · simp [modifyValorantRegistryPriorityTsx, addLogTsx, List.append_assoc]
  · show s.logs.length < _
    simp only [modifyValorantRegistryPriorityTsx]
    rw [foldl_addLogTsx]
    simp [addLogTsx]
  · simp [modifyValorantRegistryPriorityTsx, addLogTsx]

/-- C6: manual and automatic restriction requests are mutually exclusive in
the single-flight engine (guard modelled from §5 of the spec; the Rust
`restrict_processes` implementation is not under `src/`): in every reachable
engine state at most one restriction run is executing its per-process
mutations, and while one is in flight no step can start another — a second
caller of either origin can only join the waiting list until the in-flight
run finishes. -/
theorem c6_single_flight_mutual_exclusion :
    (∀ s : EngineState, EngineReachable s → s.running ≤ 1) ∧
    (∀ s s' : EngineState, EngineStep s s' → s.running ≠ 0 →
      s'.running ≤ s.running) := by
  constructor
  · intro s hs
    induction hs with
    | init => decide
    | step _ hstep ih =>
        cases hstep with
        | request => simpa using ih
        | start => simp
        | finish => simp; omega
  · intro s s' hstep hne
    cases hstep with
    | request => simp
    | start _ _ _ hr => exact absurd hr hne
    | finish => simp

/-- C6 (witness): `c6_single_flight_mutual_exclusion` at the reachable state
with one run in flight (request, then start) and at its finishing step. -/
theorem c6_single_flight_mutual_exclusion_witness :
    (⟨[], 1⟩ : EngineState).running ≤ 1 ∧
    (⟨[], 0⟩ : EngineState).running ≤ (⟨[], 1⟩ : EngineState).running := by
  have hreach : EngineReachable ⟨[], 1⟩ :=
    EngineReachable.step
      (EngineReachable.step EngineReachable.init
        (EngineStep.request ⟨[], 0⟩ RunOrigin.manual))
      (EngineStep.start ⟨[RunOrigin.manual], 0⟩ RunOrigin.manual [] rfl rfl)
  refine ⟨c6_single_flight_mutual_exclusion.1 ⟨[], 1⟩ hreach, ?_⟩
  exact c6_single_flight_mutual_exclusion.2 ⟨[], 1⟩ ⟨[], 0⟩
    (EngineStep.finish ⟨[], 1⟩ (by decide)) (by decide)

/-- C7: a successful `stopMonitoring` (`main.ts` lines 146–165, part_002
lines 147–159) clears the countdown timer and turns monitoring off, so no
sequence of subsequent ticks or manual clicks ever starts another restriction
run (even a stop whose `stop_timer` invoke rejects turns monitoring off and
so also prevents further runs); the stop leaves an in-flight restriction
invocation untouched, and that run can still finish, incrementing the
completed-run count. -/
theorem c7_stop_prevents_future_runs (s : MonState)
    (hm : s.isMonitoring = true) (ok : Bool) (evs : List MonEv) :
    (stopMonitoring true s).timerActive = false ∧
    (stopMonitoring ok s).isMonitoring = false ∧
    (stopMonitoring ok s).inFlight = s.inFlight ∧
    (stopMonitoring ok s).startedRuns = s.startedRuns ∧
    (monApplyAll evs (stopMonitoring ok s)).startedRuns = s.startedRuns ∧
    (s.inFlight = true →
      (monRunFinish (stopMonitoring ok s)).inFlight = false ∧
      (monRunFinish (stopMonitoring ok s)).completedRuns
        = s.completedRuns + 1) := by
  have hstop : (stopMonitoring ok s).isMonitoring = false ∧
      (stopMonitoring ok s).inFlight = s.inFlight ∧
      (stopMonitoring ok s).startedRuns = s.startedRuns ∧
      (stopMonitoring ok s).completedRuns = s.completedRuns := by
    cases ok <;> simp [stopMonitoring, hm]
  refine ⟨by simp [stopMonitoring, hm], hstop.1, hstop.2.1, hstop.2.2.1, ?_, ?_⟩
  · rw [(monApplyAll_stopped evs _ hstop.1).2, hstop.2.2.1]
  · intro hin
    have : (stopMonitoring ok s).inFlight = true := by rw [hstop.2.1, hin]
    simp [monRunFinish, this, hstop.2.2.2]

/-- C7 (witness): `c7_stop_prevents_future_runs` on a monitoring state with
one run in flight, followed by a tick, a manual click and the run's
completion. -/
theorem c7_stop_prevents_future_runs_witness :
    (monApplyAll [MonEv.tick, MonEv.manual, MonEv.runFinish]
        (stopMonitoring true ⟨true, true, 1, true, 3, 2⟩)).startedRuns = 3 ∧
    (monRunFinish (stopMonitoring true ⟨true, true, 1, true, 3, 2⟩)).completedRuns
      = 3 := by
  have h := c7_stop_prevents_future_runs ⟨true, true, 1, true, 3, 2⟩ rfl true
      [MonEv.tick, MonEv.manual, MonEv.runFinish]
  exact ⟨h.2.2.2.2.1, (h.2.2.2.2.2 rfl).2⟩
